import Mathlib

/-!
Shallow embedding of the geospatial agrovet-locator subsystem of the Kiduka
repository (`api/utils/agrovet.py` and `api/nodes/agrovet_search_node.py`).

Modelling conventions:
* Python floats are modelled by real numbers `ℝ`; string-to-float parsing of
  catalog cells is modelled by `Option` values (`none` = the cell raises
  `ValueError` when converted, as `astype(float)` would).
* `numpy.argsort` is modelled by `List.mergeSort` on the (row, distance)
  entries ordered by distance.  NumPy's default sort kind is `quicksort`
  (introsort), which NumPy documents as not stable; `mergeSort` fixes one
  admissible order among the sorts of the distance array.
* Python's `round(x, 2)` is modelled by round-half-to-even at two decimals
  over `ℝ`.
* Exceptions are modelled with `Except`: `findE` is the body of the `try:`
  block in `find_nearest_agrovets` (an `error` is a raised exception), and
  `find_nearest_agrovets` itself adds the `except Exception: return []`
  recovery together with the `None`/empty early return.
-/

/-- `parseDigits cs = some n` iff `cs` is a nonempty string of ASCII digits
with value `n`; models the digit part of Python `float()` parsing. -/
def parseDigits : List Char → Option ℕ
  | [] => none
  | cs =>
    if cs.all Char.isDigit then
      some (cs.foldl (fun n c => 10 * n + (c.toNat - 48)) 0)
    else none

/-- Python `str.split(sep)` for a one-character separator: splits on every
occurrence, keeping empty pieces (`"".split(',') == [""]`). -/
def splitOnChar (sep : Char) : List Char → List (List Char)
  | [] => [[]]
  | c :: cs =>
    let r := splitOnChar sep cs
    if c = sep then [] :: r
    else
      match r with
      | [] => [[c]]
      | h :: t => (c :: h) :: t

/-- Python `str.strip()`: drop leading and trailing whitespace. -/
def trimChars (cs : List Char) : List Char :=
  ((cs.dropWhile Char.isWhitespace).reverse.dropWhile Char.isWhitespace).reverse

/-- Model of Python `float(s)` on plain decimal literals (optional sign,
digits, optional single decimal point; `float()` also strips whitespace).
Exponent forms, `inf` and `nan` are not modelled: no catalog cell relevant
to the spec uses them.  `none` models `float()` raising `ValueError`. -/
def pyFloat (s : String) : Option ℚ :=
  let t := trimChars s.toList
  let sgn : ℚ := if t.head? = some '-' then -1 else 1
  let t2 := if t.head? = some '-' || t.head? = some '+' then t.tail else t
  match splitOnChar '.' t2 with
  | [ip] => (parseDigits ip).map (fun n => sgn * (n : ℚ))
  | [ip, fp] =>
    if ip.isEmpty && fp.isEmpty then none
    else
      let ipv : Option ℚ :=
        if ip.isEmpty then some 0 else (parseDigits ip).map (fun n => (n : ℚ))
      let fpv : Option ℚ :=
        if fp.isEmpty then some 0
        else (parseDigits fp).map (fun n => (n : ℚ) / 10 ^ fp.length)
      match ipv, fpv with
      | some a, some b => some (sgn * (a + b))
      | _, _ => none
  | _ => none

/-- Line 117 of `agrovet.py`:
`products = [p.strip() for p in str(row['products']).split(',') if p.strip()]`. -/
def parseProducts (s : String) : List String :=
  ((splitOnChar ',' s.toList).map (fun p => String.mk (trimChars p))).filter
    (fun p => p ≠ "")

/-- Lines 118–124 of `agrovet.py`: split the prices cell on commas and keep the
tokens that parse as floats, skipping (with a logged warning) those that raise. -/
def parsePrices (s : String) : List ℚ :=
  (splitOnChar ',' s.toList).filterMap (fun p => pyFloat (String.mk p))

/-- Round-half-to-even to an integer, the semantics of Python's builtin
`round` on the real value of its argument. -/
noncomputable def roundHalfEven (x : ℝ) : ℤ :=
  if x - ⌊x⌋ < 1 / 2 then ⌊x⌋
  else if 1 / 2 < x - ⌊x⌋ then ⌊x⌋ + 1
  else if Even ⌊x⌋ then ⌊x⌋ else ⌊x⌋ + 1

/-- Python `round(x, 2)`: round-half-to-even at two decimal places. -/
noncomputable def round2 (x : ℝ) : ℝ :=
  (roundHalfEven (100 * x) : ℝ) / 100

/-- `np.radians`: degrees to radians. -/
noncomputable def radians (x : ℝ) : ℝ :=
  x * Real.pi / 180

/-- `AgrovetLocator.haversine_distance_vectorized` (lines 49–77 of
`agrovet.py`) for a single supplier: both coordinate pairs are converted to
radians, then `a = sin²(Δlat/2) + cos(lat_u)·cos(lat_s)·sin²(Δlon/2)`,
`c = 2·asin(√a)`, and the distance is `c · 6371` km. -/
noncomputable def haversine (user_lat user_lon agrovet_lat agrovet_lon : ℝ) : ℝ :=
  2 * Real.arcsin (Real.sqrt
      (Real.sin ((radians agrovet_lat - radians user_lat) / 2) ^ 2 +
        Real.cos (radians user_lat) * Real.cos (radians agrovet_lat) *
          Real.sin ((radians agrovet_lon - radians user_lon) / 2) ^ 2)) * 6371

/-- One row of the agrovet DataFrame after column normalisation.  The `lat`
and `lon` fields hold the result of converting the cell with `float` /
`astype(float)`: `none` models a cell whose conversion raises. -/
structure AgrovetRow where
  name : String
  lat : Option ℝ
  lon : Option ℝ
  products : String
  prices : String

/-- The agrovet DataFrame: an ordered list of rows. -/
abbrev AgrovetDf := List AgrovetRow

/-- `AgrovetLocator`: holds an optional DataFrame (`None` when never loaded). -/
structure AgrovetLocator where
  agrovets_df : Option AgrovetDf

/-- One record of the list returned by `find_nearest_agrovets`
(lines 129–136 of `agrovet.py`). -/
structure AgrovetResult where
  name : String
  latitude : ℝ
  longitude : ℝ
  products : List String
  prices : List ℚ
  distance_km : ℝ

/-- `df[col].astype(float)`: converts every cell of a column, raising
(`none`) as soon as any single cell fails to convert. -/
def allSome {α : Type} : List (Option α) → Option (List α)
  | [] => some []
  | none :: _ => none
  | some a :: t => (allSome t).map (fun l => a :: l)

/-- A catalog row paired with its parsed coordinates and its haversine
distance to the user; models one index of the `distances` array kept
alongside the DataFrame row it belongs to. -/
structure QEntry where
  row : AgrovetRow
  elat : ℝ
  elon : ℝ
  dist : ℝ

/-- Lines 90–96 of `agrovet.py`: pair every DataFrame row with its converted
coordinates and its haversine distance to the user (the `distances` array). -/
noncomputable def queryEntries (df : AgrovetDf) (user_lat user_lon : ℝ)
    (lats lons : List ℝ) : List QEntry :=
  (df.zip (lats.zip lons)).map (fun p =>
    { row := p.1, elat := p.2.1, elon := p.2.2,
      dist := haversine user_lat user_lon p.2.1 p.2.2 })

/-- Lines 126–136 of `agrovet.py`: shape one selected entry into the result
record (parsed products/prices, distance rounded to 2 decimals). -/
noncomputable def shapeResult (e : QEntry) : AgrovetResult :=
  { name := e.row.name
    latitude := e.elat
    longitude := e.elon
    products := parseProducts e.row.products
    prices := parsePrices e.row.prices
    distance_km := round2 e.dist }

/-- Lines 98–136 of `agrovet.py`: keep the entries with
`dist ≤ max_distance_km` (`valid_mask`), return `[]` when none remain, else
sort ascending by distance (`np.argsort`), take the first `top_k`, and shape
each survivor into a result record. -/
noncomputable def rankEntries (entries : List QEntry) (top_k : ℕ)
    (max_distance_km : ℝ) : List AgrovetResult :=
  if (entries.filter (fun e => decide (e.dist ≤ max_distance_km))).isEmpty then
    []
  else
    (((entries.filter (fun e => decide (e.dist ≤ max_distance_km))).mergeSort
        (fun a b => decide (a.dist ≤ b.dist))).take top_k).map
      shapeResult

/-- The body of the `try:` block of `find_nearest_agrovets` (lines 88–138 of
`agrovet.py`): convert the coordinate columns, raising (`error`) as soon as
any cell fails, then rank the entries by distance. -/
noncomputable def findE (df : AgrovetDf) (user_lat user_lon : ℝ)
    (top_k : ℕ) (max_distance_km : ℝ) : Except Unit (List AgrovetResult) :=
  match allSome (df.map AgrovetRow.lat), allSome (df.map AgrovetRow.lon) with
  | some lats, some lons =>
    Except.ok (rankEntries (queryEntries df user_lat user_lon lats lons)
      top_k max_distance_km)
  | _, _ => Except.error ()

/-- `AgrovetLocator.find_nearest_agrovets` (lines 79–142 of `agrovet.py`):
return `[]` when the DataFrame is `None` or empty, otherwise run the body
and recover any exception with `[]` (lines 140–142). -/
noncomputable def find_nearest_agrovets (loc : AgrovetLocator)
    (user_lat user_lon : ℝ) (top_k : ℕ) (max_distance_km : ℝ) :
    List AgrovetResult :=
  match loc.agrovets_df with
  | none => []
  | some df =>
    if df.isEmpty then []
    else
      match findE df user_lat user_lon top_k max_distance_km with
      | Except.ok res => res
      | Except.error _ => []

/-- `WorkflowState` as used by `find_nearest_agrovets_node`:
`app_components` may lack the `agrovet_locator` entry (`none`), `soil_data`
may lack the latitude/longitude keys (`none`). -/
structure WorkflowState where
  agrovet_locator : Option AgrovetLocator
  soil_location : Option (ℝ × ℝ)
  nearest_agrovets : List AgrovetResult

/-- `AppConfig.DEFAULT_AGROVET_COUNT` (`config.py`). -/
def DEFAULT_AGROVET_COUNT : ℕ := 5

/-- `AppConfig.MAX_AGROVET_DISTANCE_KM` (`config.py`). -/
def MAX_AGROVET_DISTANCE_KM : ℝ := 500

/-- `find_nearest_agrovets_node` (`api/nodes/agrovet_search_node.py`): when
the locator component is missing it raises `ValueError("AgrovetLocator is
not initialized")`, but that raise happens inside the node's own `try:` and
is caught by its `except Exception:` (lines 50–54), which stores `[]`; when
location keys are missing it stores `[]`; otherwise it stores the locator's
results for the configured `top_k` and radius. -/
noncomputable def find_nearest_agrovets_node (state : WorkflowState) :
    WorkflowState :=
  match state.agrovet_locator with
  | none => { state with nearest_agrovets := [] }
  | some loc =>
    match state.soil_location with
    | none => { state with nearest_agrovets := [] }
    | some ll =>
      let res := find_nearest_agrovets loc ll.1 ll.2
        DEFAULT_AGROVET_COUNT MAX_AGROVET_DISTANCE_KM
      { state with nearest_agrovets := res }

/-- Raw tabular data as read by `pd.read_csv`: column names and rows of cells. -/
structure RawTable where
  cols : List String
  rows : List (List String)

/-- `True` iff `pat` occurs as a contiguous substring of `s`; models
Python's `in` operator on strings. -/
def containsSub (s pat : String) : Bool :=
  decide (pat.toList <:+: s.toList)

/-- Lines 200–212 of `agrovet.py`: map one (already stripped and lowercased)
column name to its canonical name via the substring rules; a name matching
no rule is left unchanged. -/
def canonicalCol (c : String) : String :=
  let c := c.trim.toLower
  if containsSub c "name" || c.startsWith "name" then "name"
  else if containsSub c "lat" && !containsSub c "latitude" then "lat"
  else if containsSub c "lon" && !containsSub c "longitude" then "lon"
  else if containsSub c "product" then "products"
  else if containsSub c "price" then "prices"
  else c

/-- Lines 196–217 of `agrovet.py`: normalise (strip, lowercase) and rename
the columns of a successfully read table. -/
def normalizeTable (t : RawTable) : RawTable :=
  { t with cols := t.cols.map canonicalCol }

/-- The condition of the data source seen by `load_agrovet_data`: no
candidate path exists on disk, or `pd.read_csv` raises, or it yields a table. -/
inductive CsvSource
  | missing
  | unreadable
  | table (t : RawTable)

/-- The built-in sample catalog created by `load_agrovet_data` when no CSV
file is found (lines 222–231 of `agrovet.py`). -/
def sampleTable : RawTable :=
  { cols := ["name", "lat", "lon", "products", "prices"]
    rows :=
      [["Nnnn", "-1.5117552", "37.2668997", "NPK, CAN, DAP", "60,55,70"],
       ["Teso", "-1.5119642", "37.2669725", "NPK, CAN, DAP", "60,55,70"],
       ["GOODWILL FAMERS AGROVET", "0.493122", "34.1335989", "NPK, CAN, DAP",
        "60,55,70"],
       ["Farm Choice Agrovet", "0.4731916", "34.1881309", "NPK, CAN, DAP",
        "60,55,70"],
       ["Kemodo Agrovet", "0.467253065", "34.18603331", "NPK, CAN, DAP",
        "60,55,70"]] }

/-- `load_agrovet_data` (lines 176–236 of `agrovet.py`): when some candidate
path exists its table is read and normalised; when no candidate path exists
the function itself builds and returns the sample catalog; when reading
raises, the `except` clause returns `None`. -/
def load_agrovet_data : CsvSource → Option RawTable
  | CsvSource.missing => some sampleTable
  | CsvSource.unreadable => none
  | CsvSource.table t => some (normalizeTable t)

/-! ## Helper lemmas -/

theorem roundHalfEven_le (x : ℝ) : (roundHalfEven x : ℝ) ≤ x + 1 / 2 := by
  have hfl : (⌊x⌋ : ℝ) ≤ x := Int.floor_le x
  unfold roundHalfEven
  split_ifs with h1 h2 h3 <;> push_cast <;> linarith

theorem roundHalfEven_mono {x y : ℝ} (h : x ≤ y) :
    roundHalfEven x ≤ roundHalfEven y := by
  have hf : ⌊x⌋ ≤ ⌊y⌋ := Int.floor_le_floor h
  rcases lt_or_eq_of_le hf with hlt | heq
  · have h1 : roundHalfEven x ≤ ⌊x⌋ + 1 := by
      unfold roundHalfEven; split_ifs <;> omega
    have h2 : ⌊y⌋ ≤ roundHalfEven y := by
      unfold roundHalfEven; split_ifs <;> omega
    omega
  · unfold roundHalfEven
    rw [← heq]
    split_ifs <;> first | omega | linarith

theorem round2_le (x : ℝ) : round2 x ≤ x + 1 / 200 := by
  have h := roundHalfEven_le (100 * x)
  unfold round2
  linarith

theorem round2_mono {x y : ℝ} (h : x ≤ y) : round2 x ≤ round2 y := by
  have h2 : roundHalfEven (100 * x) ≤ roundHalfEven (100 * y) :=
    roundHalfEven_mono (by linarith)
  have h3 : ((roundHalfEven (100 * x) : ℝ)) ≤ (roundHalfEven (100 * y) : ℝ) := by
    exact_mod_cast h2
  unfold round2
  linarith

theorem haversine_self (lat lon : ℝ) : haversine lat lon lat lon = 0 := by
  simp [haversine]

theorem haversine_equator {θ : ℝ} (h0 : 0 ≤ θ) (h180 : θ ≤ 180) :
    haversine 0 0 0 θ = 6371 * (θ * Real.pi / 180) := by
  have hπ : 0 < Real.pi := Real.pi_pos
  have hu0 : 0 ≤ θ * Real.pi / 180 / 2 := by positivity
  have huh : θ * Real.pi / 180 / 2 ≤ Real.pi / 2 := by nlinarith
  have hneg : -(Real.pi / 2) ≤ θ * Real.pi / 180 / 2 := by linarith
  have hπle : θ * Real.pi / 180 / 2 ≤ Real.pi := by linarith
  have hsin : 0 ≤ Real.sin (θ * Real.pi / 180 / 2) :=
    Real.sin_nonneg_of_nonneg_of_le_pi hu0 hπle
  simp [haversine, radians, Real.sqrt_sq_eq_abs, abs_of_nonneg hsin,
    Real.arcsin_sin hneg huh]
  ring

theorem mem_rankEntries {r : AgrovetResult} {es : List QEntry} {k : ℕ} {m : ℝ}
    (hr : r ∈ rankEntries es k m) :
    ∃ e ∈ es, e.dist ≤ m ∧ r = shapeResult e := by
  unfold rankEntries at hr
  split_ifs at hr with hv
  · exact absurd hr (List.not_mem_nil r)
  · rcases List.mem_map.mp hr with ⟨e, he, rfl⟩
    have h1 : e ∈ (es.filter (fun e => decide (e.dist ≤ m))).mergeSort
        (fun a b => decide (a.dist ≤ b.dist)) := List.take_subset _ _ he
    have h2 : e ∈ es.filter (fun e => decide (e.dist ≤ m)) :=
      List.mem_mergeSort.mp h1
    rcases List.mem_filter.mp h2 with ⟨hmem, hdec⟩
    exact ⟨e, hmem, of_decide_eq_true hdec, rfl⟩

theorem rankEntries_pairwise (es : List QEntry) (k : ℕ) (m : ℝ) :
    List.Pairwise (fun a b : AgrovetResult => a.distance_km ≤ b.distance_km)
      (rankEntries es k m) := by
  unfold rankEntries
  split_ifs with hv
  · exact List.Pairwise.nil
  · have hsort : List.Pairwise (fun a b : QEntry => decide (a.dist ≤ b.dist) = true)
        ((es.filter (fun e => decide (e.dist ≤ m))).mergeSort
          (fun a b => decide (a.dist ≤ b.dist))) := by
      apply List.sorted_mergeSort
      · intro a b c hab hbc
        exact decide_eq_true (le_trans (of_decide_eq_true hab) (of_decide_eq_true hbc))
      · intro a b
        rcases le_total a.dist b.dist with h | h <;> simp [h]
    have htake := List.Pairwise.sublist (List.take_sublist k _) hsort
    exact List.Pairwise.map shapeResult
      (fun a b hab => round2_mono (of_decide_eq_true hab)) htake

theorem rankEntries_length (es : List QEntry) (k : ℕ) (m : ℝ) :
    (rankEntries es k m).length ≤ k := by
  unfold rankEntries
  split_ifs with hv
  · simp
  · rw [List.length_map, List.length_take]
    exact min_le_left _ _

theorem find_cases (loc : AgrovetLocator) (u v : ℝ) (k : ℕ) (m : ℝ) :
    find_nearest_agrovets loc u v k m = [] ∨
    ∃ df lats lons, loc.agrovets_df = some df ∧
      allSome (df.map AgrovetRow.lat) = some lats ∧
      allSome (df.map AgrovetRow.lon) = some lons ∧
      find_nearest_agrovets loc u v k m =
        rankEntries (queryEntries df u v lats lons) k m := by
  obtain ⟨odf⟩ := loc
  cases odf with
  | none => left; rfl
  | some df =>
    by_cases he : df.isEmpty
    · left; simp [find_nearest_agrovets, he]
    · rcases h1 : allSome (df.map AgrovetRow.lat) with _ | lats
      · left; simp [find_nearest_agrovets, he, findE, h1]
      · rcases h2 : allSome (df.map AgrovetRow.lon) with _ | lons
        · left; simp [find_nearest_agrovets, he, findE, h1, h2]
        · right
          exact ⟨df, lats, lons, rfl, h1, h2, by
            simp [find_nearest_agrovets, he, findE, h1, h2]⟩

/-! ## Claim theorems -/

/-- C2: for every catalog and query, the sequence returned by
`find_nearest_agrovets` is sorted ascending by distance:
`results[i].distance_km ≤ results[i+1].distance_km` for all adjacent pairs. -/
theorem C2_sort_order (loc : AgrovetLocator) (user_lat user_lon : ℝ)
    (top_k : ℕ) (max_distance_km : ℝ) :
    List.Chain' (fun a b : AgrovetResult => a.distance_km ≤ b.distance_km)
      (find_nearest_agrovets loc user_lat user_lon top_k max_distance_km) := by
  rcases find_cases loc user_lat user_lon top_k max_distance_km with
    h | ⟨df, lats, lons, _, _, _, h⟩
  · rw [h]; exact List.chain'_nil
  · rw [h]; exact (rankEntries_pairwise _ _ _).chain'

/-- C4: for every catalog and query with `top_k ≥ 1`, the sequence returned
by `find_nearest_agrovets` contains at most `top_k` records. -/
theorem C4_bounded_count (loc : AgrovetLocator) (user_lat user_lon : ℝ)
    (top_k : ℕ) (max_distance_km : ℝ) (hk : 1 ≤ top_k) :
    (find_nearest_agrovets loc user_lat user_lon top_k max_distance_km).length
      ≤ top_k := by
  rcases find_cases loc user_lat user_lon top_k max_distance_km with
    h | ⟨df, lats, lons, _, _, _, h⟩ <;> rw [h]
  · simp
  · exact rankEntries_length _ _ _

/-- Witness for C4: a concrete query with `top_k = 1` against a one-row
catalog satisfies the hypothesis and the bound. -/
theorem C4_bounded_count_witness :
    1 ≤ 1 ∧
    (find_nearest_agrovets ⟨some [⟨"A", some 0, some 0, "NPK", "60"⟩]⟩
      0 0 1 100).length ≤ 1 :=
  ⟨Nat.le_refl 1,
    C4_bounded_count ⟨some [⟨"A", some 0, some 0, "NPK", "60"⟩]⟩ 0 0 1 100
      (Nat.le_refl 1)⟩

/-- C8: a supplier row with products `"NPK,CAN"` and prices `"60,bad"` is
processed without error into `products = ["NPK", "CAN"]` and
`prices = [60.0]`: the unparseable price token is skipped, leaving `prices`
shorter than `products`. -/
theorem C8_malformed_price_row :
    parseProducts "NPK,CAN" = ["NPK", "CAN"] ∧
    parsePrices "60,bad" = [60] ∧
    (parsePrices "60,bad").length < (parseProducts "NPK,CAN").length := by
  have hp : parsePrices "60,bad" = [1 * ((60 : ℕ) : ℚ)] := rfl
  have hp2 : parsePrices "60,bad" = [60] := by rw [hp]; norm_num
  refine ⟨by decide, hp2, ?_⟩
  rw [hp2]
  decide

/-- C9: the haversine distance function is symmetric:
`distance(A→B) = distance(B→A)` for any two coordinate pairs in degrees. -/
theorem C9_haversine_symm (lat1 lon1 lat2 lon2 : ℝ) :
    haversine lat1 lon1 lat2 lon2 = haversine lat2 lon2 lat1 lon1 := by
  have key : ∀ x y : ℝ,
      Real.sin ((x - y) / 2) ^ 2 = Real.sin ((y - x) / 2) ^ 2 := by
    intro x y
    rw [show (x - y) / 2 = -((y - x) / 2) by ring, Real.sin_neg]
    ring
  unfold haversine
  rw [key (radians lat2) (radians lat1), key (radians lon2) (radians lon1),
    mul_comm (Real.cos (radians lat1)) (Real.cos (radians lat2))]

/-- C10: `find_nearest_agrovets` is total at its public interface: for every
catalog (including `None`, empty, or with malformed rows) and all numeric
arguments, the call either returns the successful pipeline result (no
exception escapes, `findE` is `ok`) or returns the empty list; in
particular every failure path yields `[]`. -/
theorem C10_totality (loc : AgrovetLocator) (user_lat user_lon : ℝ)
    (top_k : ℕ) (max_distance_km : ℝ) :
    find_nearest_agrovets loc user_lat user_lon top_k max_distance_km = [] ∨
    ∃ df res, loc.agrovets_df = some df ∧
      findE df user_lat user_lon top_k max_distance_km = Except.ok res ∧
      find_nearest_agrovets loc user_lat user_lon top_k max_distance_km =
        res := by
  rcases find_cases loc user_lat user_lon top_k max_distance_km with
    h | ⟨df, lats, lons, hdf, h1, h2, h⟩
  · left; exact h
  · right
    exact ⟨df, _, hdf, by simp [findE, h1, h2], h⟩

theorem allSome_eq_none {α : Type} {l : List (Option α)} (h : none ∈ l) :
    allSome l = none := by
  induction l with
  | nil => cases h
  | cons a t ih =>
    cases a with
    | none => rfl
    | some x =>
      rcases List.mem_cons.mp h with h1 | h2
      · exact Option.noConfusion h1
      · simp [allSome, ih h2]

/-- A catalog row whose latitude cell fails `float` conversion. -/
def rowBadC5 : AgrovetRow :=
  { name := "Bad", lat := none, lon := some 36, products := "NPK", prices := "60" }

/-- A well-formed catalog row located exactly at the test user location. -/
def rowGoodC5 : AgrovetRow :=
  { name := "Good", lat := some 0, lon := some 0, products := "NPK", prices := "60" }

/-- C5 counterexample: a catalog holding one malformed row (`rowBadC5`,
unparseable latitude) next to a well-formed row (`rowGoodC5`) at distance 0
from the user (well inside `max_distance_km = 100`, with `top_k = 5`)
returns the empty list: the well-formed supplier is NOT returned, because
`astype(float)` raises on the whole column and the handler returns `[]`. -/
theorem C5_counterexample :
    find_nearest_agrovets ⟨some [rowBadC5, rowGoodC5]⟩ 0 0 5 100 = [] ∧
    rowGoodC5.lat = some 0 ∧ rowGoodC5.lon = some 0 ∧
    haversine 0 0 0 0 = 0 ∧ ((0 : ℝ) ≤ 100) :=
  ⟨rfl, rfl, rfl, haversine_self 0 0, by norm_num⟩

/-- C5 amended: a query never raises because of malformed rows, but whenever
any row of the catalog has an unparseable coordinate the whole query
returns `[]` — the well-formed suppliers are dropped together with the
malformed ones, not returned. -/
theorem C5_amended (df : AgrovetDf) (user_lat user_lon : ℝ) (top_k : ℕ)
    (max_distance_km : ℝ)
    (h : ∃ row ∈ df, row.lat = none ∨ row.lon = none) :
    find_nearest_agrovets ⟨some df⟩ user_lat user_lon top_k max_distance_km
      = [] := by
  by_cases he : df.isEmpty
  · simp [find_nearest_agrovets, he]
  · rcases h with ⟨row, hrow, hbad | hbad⟩
    · have hmem : (none : Option ℝ) ∈ df.map AgrovetRow.lat :=
        List.mem_map.mpr ⟨row, hrow, hbad⟩
      have h1 := allSome_eq_none hmem
      simp [find_nearest_agrovets, he, findE, h1]
    · have hmem : (none : Option ℝ) ∈ df.map AgrovetRow.lon :=
        List.mem_map.mpr ⟨row, hrow, hbad⟩
      have h2 := allSome_eq_none hmem
      rcases h1 : allSome (df.map AgrovetRow.lat) with _ | lats <;>
        simp [find_nearest_agrovets, he, findE, h1, h2]

/-- Witness for the amended C5 at a concrete two-row catalog. -/
theorem C5_amended_witness :
    (∃ row ∈ [rowBadC5, rowGoodC5], row.lat = none ∨ row.lon = none) ∧
    find_nearest_agrovets ⟨some [rowBadC5, rowGoodC5]⟩ 0 0 5 100 = [] :=
  ⟨⟨rowBadC5, by simp, Or.inl rfl⟩,
    C5_amended [rowBadC5, rowGoodC5] 0 0 5 100
      ⟨rowBadC5, by simp, Or.inl rfl⟩⟩

/-- C6 counterexample: a query against a locator whose catalog is `None`
does not signal any error condition — it succeeds with the empty list, the
very same value the empty-catalog success path returns. -/
theorem C6_counterexample :
    find_nearest_agrovets ⟨none⟩ 0 0 5 100 = [] ∧
    find_nearest_agrovets ⟨some []⟩ 0 0 5 100 = [] :=
  ⟨rfl, rfl⟩

/-- C6 amended: when the catalog is `None` the finder silently degrades to
the empty list (indistinguishable from a normal empty result); the
`ValueError` for an uninitialized locator exists only inside the workflow
node, and even there it is caught by the node's own `except` handler, which
stores `[]` in the state instead of surfacing the error. -/
theorem C6_amended (user_lat user_lon : ℝ) (top_k : ℕ) (max_distance_km : ℝ)
    (s : WorkflowState) (hs : s.agrovet_locator = none) :
    find_nearest_agrovets ⟨none⟩ user_lat user_lon top_k max_distance_km = []
      ∧ (find_nearest_agrovets_node s).nearest_agrovets = [] := by
  constructor
  · rfl
  · obtain ⟨a, b, c⟩ := s
    simp only at hs
    subst hs
    rfl

/-- Witness for the amended C6 at concrete arguments and a concrete state. -/
theorem C6_amended_witness :
    find_nearest_agrovets ⟨none⟩ 0 0 5 100 = [] ∧
    (find_nearest_agrovets_node ⟨none, none, []⟩).nearest_agrovets = [] :=
  C6_amended 0 0 5 100 ⟨none, none, []⟩ rfl

/-- C7 counterexample: when the source is unreachable (no candidate path
exists), `load_agrovet_data` does not fail — it itself builds and returns
the built-in sample catalog, so the substitution is a silent behaviour of
the load operation, not a decision of the caller. -/
theorem C7_counterexample :
    load_agrovet_data CsvSource.missing = some sampleTable ∧
    load_agrovet_data CsvSource.missing ≠ none :=
  ⟨rfl, by simp [load_agrovet_data]⟩

/-- C7 amended: only an unparseable source makes `load_agrovet_data` fail
(return `None`, the `DataUnavailable` signal); a missing source makes the
load operation itself silently substitute the built-in sample catalog. -/
theorem C7_amended_load :
    load_agrovet_data CsvSource.unreadable = none ∧
    load_agrovet_data CsvSource.missing = some sampleTable :=
  ⟨rfl, rfl⟩

theorem haversine_0_0_0_2 : haversine 0 0 0 2 = 6371 * Real.pi / 90 := by
  have h := haversine_equator (θ := 2) (by norm_num) (by norm_num)
  rw [h]; ring

theorem rhe_pi_val : roundHalfEven (100 * (6371 * Real.pi / 90)) = 22239 := by
  have hpl : 3.141592 < Real.pi := Real.pi_gt_d6
  have hpu : Real.pi < 3.141593 := Real.pi_lt_d6
  have hy1 : (22238 : ℝ) + 1 / 2 < 100 * (6371 * Real.pi / 90) := by nlinarith
  have hy2 : 100 * (6371 * Real.pi / 90) < 22239 := by nlinarith
  have hfl : ⌊100 * (6371 * Real.pi / 90)⌋ = 22238 := by
    apply Int.floor_eq_iff.mpr
    constructor <;> push_cast <;> linarith
  unfold roundHalfEven
  rw [hfl]
  split_ifs with h1 h2
  · exfalso; push_cast at h1; linarith
  · norm_num
  · exfalso; push_cast at h2; linarith
  · norm_num

theorem round2_pi_val : round2 (6371 * Real.pi / 90) = 22239 / 100 := by
  unfold round2
  rw [rhe_pi_val]
  norm_num

/-- A catalog row on the equator, 2 degrees of longitude away from the test
user location `(0, 0)`; its haversine distance is exactly `6371·π/90` km. -/
def rowC1 : AgrovetRow :=
  { name := "B", lat := some 0, lon := some 2, products := "NPK", prices := "60" }

/-- C1 counterexample: with `max_distance_km = 6371·π/90 > 0` (the exact
distance of `rowC1` from the user at `(0,0)`, ≈ 222.3899 km) the supplier
passes the `distance ≤ max_distance_km` filter, but the `distance_km` value
placed in the result is the 2-decimal rounding 222.39, which exceeds
`max_distance_km`.  So the radius invariant is false for the rounded value
that `find_nearest_agrovets` actually returns. -/
theorem C1_counterexample :
    (0 : ℝ) < 6371 * Real.pi / 90 ∧
    (find_nearest_agrovets ⟨some [rowC1]⟩ 0 0 5 (6371 * Real.pi / 90)).map
      AgrovetResult.distance_km = [22239 / 100] ∧
    ¬ ((22239 : ℝ) / 100 ≤ 6371 * Real.pi / 90) := by
  have hpl : 3.141592 < Real.pi := Real.pi_gt_d6
  have hpu : Real.pi < 3.141593 := Real.pi_lt_d6
  refine ⟨by nlinarith, ?_, by intro h; nlinarith⟩
  have hd : haversine 0 0 0 2 = 6371 * Real.pi / 90 := haversine_0_0_0_2
  have hstep : find_nearest_agrovets ⟨some [rowC1]⟩ 0 0 5 (6371 * Real.pi / 90)
      = rankEntries (queryEntries [rowC1] 0 0 [0] [2]) 5
        (6371 * Real.pi / 90) := by
    simp [find_nearest_agrovets, findE, allSome, rowC1]
  rw [hstep]
  have hq : queryEntries [rowC1] 0 0 [0] [2] =
      [⟨rowC1, 0, 2, haversine 0 0 0 2⟩] := by
    simp [queryEntries]
  rw [hq, hd]
  unfold rankEntries
  have hfil : ([(⟨rowC1, 0, 2, 6371 * Real.pi / 90⟩ : QEntry)]).filter
      (fun e => decide (e.dist ≤ 6371 * Real.pi / 90)) =
      [(⟨rowC1, 0, 2, 6371 * Real.pi / 90⟩ : QEntry)] := by
    simp
  rw [hfil]
  have hms : ([(⟨rowC1, 0, 2, 6371 * Real.pi / 90⟩ : QEntry)]).mergeSort
      (fun a b => decide (a.dist ≤ b.dist)) =
      [(⟨rowC1, 0, 2, 6371 * Real.pi / 90⟩ : QEntry)] :=
    List.perm_singleton.mp (List.mergeSort_perm _ _)
  rw [hms]
  simp [shapeResult, round2_pi_val]

/-- C1 amended: for every catalog, valid user location, `top_k ≥ 1` and
`max_distance_km > 0`, every returned record satisfies
`distance_km ≤ max_distance_km + 0.005`: the unrounded distance is within
the radius, and the stored 2-decimal rounding can exceed it by at most half
a cent of a kilometre. -/
theorem C1_amended_radius (loc : AgrovetLocator) (user_lat user_lon : ℝ)
    (top_k : ℕ) (max_distance_km : ℝ)
    (hlat : -90 ≤ user_lat ∧ user_lat ≤ 90)
    (hlon : -180 ≤ user_lon ∧ user_lon ≤ 180)
    (hk : 1 ≤ top_k) (hm : 0 < max_distance_km) :
    ∀ r ∈ find_nearest_agrovets loc user_lat user_lon top_k max_distance_km,
      r.distance_km ≤ max_distance_km + 1 / 200 := by
  intro r hr
  rcases find_cases loc user_lat user_lon top_k max_distance_km with
    h | ⟨df, lats, lons, _, _, _, h⟩
  · rw [h] at hr; cases hr
  · rw [h] at hr
    rcases mem_rankEntries hr with ⟨e, _, hle, rfl⟩
    have h1 : (shapeResult e).distance_km = round2 e.dist := rfl
    have h2 := round2_le e.dist
    rw [h1]
    linarith

/-- Witness for the amended C1 at a concrete catalog and query. -/
theorem C1_amended_radius_witness :
    ((-90 : ℝ) ≤ 0 ∧ (0 : ℝ) ≤ 90) ∧ ((-180 : ℝ) ≤ 0 ∧ (0 : ℝ) ≤ 180) ∧
    1 ≤ 5 ∧ (0 : ℝ) < 100 ∧
    ∀ r ∈ find_nearest_agrovets ⟨some [rowC1]⟩ 0 0 5 100,
      r.distance_km ≤ 100 + 1 / 200 :=
  ⟨⟨by norm_num, by norm_num⟩, ⟨by norm_num, by norm_num⟩, by norm_num,
    by norm_num,
    C1_amended_radius ⟨some [rowC1]⟩ 0 0 5 100 ⟨by norm_num, by norm_num⟩
      ⟨by norm_num, by norm_num⟩ (by norm_num) (by norm_num)⟩
